import Mathlib

/-!
Shallow embedding of the Roblox bundle-notifier bot (src/index.js and
src/unnamed/part_000) together with proofs about its change-detection
loop, its slug formatter, its price-string derivation, its on-demand
command handler and its tick scheduler.

The two JavaScript variants share the poll loop `checkForNewBundles`;
the file models both: `checkForNewBundles` follows src/index.js
(filter first, then a loop that inserts each new id into the seen set
and then posts its embed), and `checkForNewBundlesV0` follows
src/unnamed/part_000 (a forEach that collects new bundles while
inserting their ids, then a message-sending loop, and an alert message
on a failed fetch).  The mutable global `lastKnownBundleIds` (a JS Set
of ids) is passed explicitly as a `Finset Nat` named `seen`; a tick
returns the updated set together with the ordered trace of externally
visible events it produced.
-/

namespace BundleBot

/-- A catalog entry as decoded from the upstream JSON.  Fields that the
JavaScript reads optionally (`bundle.name`, `bundle.description`,
`bundle.priceStatus`, `bundle.price`, `bundle.updated`, creator data)
are `Option`s; `id` is always present per the upstream data model. -/
structure Bundle where
  id : Nat
  name : Option String := none
  description : Option String := none
  priceStatus : Option String := none
  price : Option Nat := none
  updated : Option String := none
  creatorName : Option String := none
  creatorProfileLink : Option String := none
deriving DecidableEq, Repr

/-- Externally visible events of one poll tick, in program order.
`insert i` models `lastKnownBundleIds.add(i)`, `notify i` models the
per-bundle posting call (`createAndSendBundleEmbed(bundle.id)` in
src/index.js, `sendMessage(message)` for the bundle in part_000), and
`alert msg` models the failure alert `sendMessage` of part_000. -/
inductive Event where
  | insert (id : Nat)
  | notify (id : Nat)
  | alert (msg : String)
deriving DecidableEq, Repr

/-- The ids posted by a trace, in order (the notifications of a tick). -/
def notifyEvents : List Event → List Nat
  | [] => []
  | Event.notify i :: es => i :: notifyEvents es
  | Event.insert _ :: es => notifyEvents es
  | Event.alert _ :: es => notifyEvents es

/-- The alert messages of a trace, in order. -/
def alertEvents : List Event → List String
  | [] => []
  | Event.alert m :: es => m :: alertEvents es
  | Event.insert _ :: es => alertEvents es
  | Event.notify _ :: es => alertEvents es

/-- src/index.js lines 134-138: `for (const bundle of newBundles) {
lastKnownBundleIds.add(bundle.id); await createAndSendBundleEmbed(bundle.id); }`.
Each iteration first inserts the id into the seen set and then posts, so
the trace interleaves `insert` and `notify` in list order. -/
def notifyLoop (seen : Finset Nat) : List Bundle → Finset Nat × List Event
  | [] => (seen, [])
  | b :: rest =>
    let r := notifyLoop (insert b.id seen) rest
    (r.1, Event.insert b.id :: Event.notify b.id :: r.2)

/-- One poll tick of src/index.js `checkForNewBundles` (lines 116-146).
The fetch outcome is passed in: `Except.error msg` models a thrown
transport error or a non-ok HTTP status (both land in the catch block,
which only logs), `Except.ok l` models a successful response whose
`data.data || []` decoded to `l`. -/
def checkForNewBundles (seen : Finset Nat) (fetch : Except String (List Bundle)) :
    Finset Nat × List Event :=
  match fetch with
  | Except.error _ => (seen, [])
  | Except.ok currentBundles =>
    if seen.card = 0 ∧ 0 < currentBundles.length then
      (currentBundles.foldl (fun s b => insert b.id s) seen, [])
    else
      let newBundles := currentBundles.filter (fun b => decide (b.id ∉ seen))
      if 0 < newBundles.length then
        notifyLoop seen newBundles
      else
        (seen, [])

/-- part_000 lines 93-100: the forEach that pushes each bundle whose id
is not yet in the seen set and inserts its id as it goes.  Returns the
updated set and the collected `newBundles` in list order. -/
def collectNewBundles (seen : Finset Nat) : List Bundle → Finset Nat × List Bundle
  | [] => (seen, [])
  | b :: rest =>
    if b.id ∈ seen then
      collectNewBundles seen rest
    else
      let r := collectNewBundles (insert b.id seen) rest
      (r.1, b :: r.2)

/-- The alert text part_000 line 122 sends when a tick fails. -/
def alertMessage (msg : String) : String :=
  "🚨 Alert: Failed to check for new Roblox bundles! Error: `" ++ msg ++ "`"

/-- One poll tick of src/unnamed/part_000 `checkForNewBundles`
(lines 66-124).  Unlike src/index.js, the catch block sends an alert
message through the Discord sink, unconditionally. -/
def checkForNewBundlesV0 (seen : Finset Nat) (fetch : Except String (List Bundle)) :
    Finset Nat × List Event :=
  match fetch with
  | Except.error msg => (seen, [Event.alert (alertMessage msg)])
  | Except.ok currentBundles =>
    if seen.card = 0 ∧ 0 < currentBundles.length then
      (currentBundles.foldl (fun s b => insert b.id s) seen, [])
    else
      let r := collectNewBundles seen currentBundles
      if 0 < r.2.length then
        (r.1, r.2.map (fun b => Event.notify b.id))
      else
        (r.1, [])

/-! ## Slug formatter (src/index.js lines 30-38)

The JavaScript lowercases the name, then applies five global regex
replacements in order: whitespace runs to a single hyphen, removal of
every character outside `[A-Za-z0-9_-]`, collapse of hyphen runs to a
single hyphen, and stripping of leading and of trailing hyphens.  Each
replacement is embedded as a structural recursion over the character
list. -/

/-- Characters matched by the regex class `\s` (ASCII range). -/
def isWsChar (c : Char) : Bool :=
  c == ' ' || c == '\t' || c == '\n' || c == '\r' || c == '\x0b' || c == '\x0c'

/-- Characters matched by the regex class `\w`, that is `[A-Za-z0-9_]`. -/
def isWordChar (c : Char) : Bool :=
  c.isAlpha || c.isDigit || c == '_'

/-- The global replacement of `\s+` by `-`: each maximal whitespace run
becomes one hyphen.  The flag records whether a run is in progress. -/
def wsGo : Bool → List Char → List Char
  | _, [] => []
  | inRun, c :: rest =>
    if isWsChar c then
      match inRun with
      | true => wsGo true rest
      | false => '-' :: wsGo true rest
    else c :: wsGo false rest

/-- The global replacement of `--+` by `-`: each maximal hyphen run
becomes one hyphen (runs of length one already are one). -/
def collapseGo : Bool → List Char → List Char
  | _, [] => []
  | inRun, c :: rest =>
    if c = '-' then
      match inRun with
      | true => collapseGo true rest
      | false => '-' :: collapseGo true rest
    else c :: collapseGo false rest

/-- The replacement of `-+$` by the empty string: drop the maximal
trailing hyphen run. -/
def stripTrailingHyphens : List Char → List Char
  | [] => []
  | c :: rest =>
    match stripTrailingHyphens rest with
    | [] => if c = '-' then [] else [c]
    | r => c :: r

/-- The whole replacement pipeline on a lowercased character list:
whitespace runs to hyphens, filter to word characters and hyphens,
collapse hyphen runs, strip leading hyphens, strip trailing hyphens. -/
def slugifyChars (cs : List Char) : List Char :=
  stripTrailingHyphens
    (((collapseGo false
      ((wsGo false cs).filter fun c => isWordChar c || c == '-')).dropWhile
        fun c => c == '-'))

/-- src/index.js `slugify`.  `none` models a missing `bundle.name`
(JS `undefined`); `!name` is also true for the empty string. -/
def slugify (name : Option String) : String :=
  match name with
  | none => ""
  | some s => if s = "" then "" else ⟨slugifyChars (s.data.map Char.toLower)⟩

/-! ## Notification builder (src/index.js lines 72-96) -/

/-- JS `x || d` on an optional string: `undefined` and `""` are falsy. -/
def jsOrString : Option String → String → String
  | none, d => d
  | some s, d => if s = "" then d else s

/-- JS truthiness of the optional numeric `bundle.price`:
`undefined` and `0` are falsy. -/
def jsTruthyNat : Option Nat → Bool
  | none => false
  | some p => decide (p ≠ 0)

/-- Price string of src/index.js lines 76-83: `Free` first, then a
truthy `price`, then `Off-Sale`, else the initial `N/A`. -/
def priceString (b : Bundle) : String :=
  if b.priceStatus = some "Free" then "Free"
  else if jsTruthyNat b.price then toString (b.price.getD 0) ++ " Robux"
  else if b.priceStatus = some "Off-Sale" then "Off-Sale"
  else "N/A"

/-- The embed of src/index.js lines 85-96 (color and footer are fixed
constants and carry no information, so they are omitted).  A missing
`creatorName` or `creatorProfileLink` interpolates as the string
`undefined`, as a JS template literal does. -/
structure RichEmbed where
  title : String
  url : String
  description : String
  thumbnail : String
  priceField : String
  creatorField : String
  timestamp : Option String
deriving DecidableEq, Repr

def buildEmbed (b : Bundle) (thumbnailUrl : String) : RichEmbed :=
  let bundleSlug := slugify b.name
  { title := jsOrString b.name "Unknown Bundle"
    url := "https://www.roblox.com/bundles/" ++ toString b.id ++ "/" ++
      (if bundleSlug = "" then "-" else bundleSlug)
    description := jsOrString b.description "No description available."
    thumbnail := thumbnailUrl
    priceField := priceString b
    creatorField := "[" ++ b.creatorName.getD "undefined" ++ "](" ++
      b.creatorProfileLink.getD "undefined" ++ ")"
    timestamp := b.updated }

/-! ## On-demand path (src/index.js lines 46-112 and 190-205) -/

/-- Outcome of the detail POST: a non-ok HTTP status (which the code
turns into a thrown error), or a decoded `detailsData.data?.[0]`
(`none` when the upstream reports no matching record). -/
inductive DetailFetch where
  | httpError (status : Nat)
  | ok (record : Option Bundle)
deriving DecidableEq, Repr

/-- Events sent through the Discord sink by the on-demand or broadcast
path: an error reply to the requester, an embed reply to the requester,
or an embed posted to the fixed broadcast channel. -/
inductive OutEvent where
  | editReplyError (msg : String)
  | editReplyEmbed (e : RichEmbed)
  | channelSend (e : RichEmbed)
deriving DecidableEq, Repr

/-- src/index.js line 61. -/
def notFoundMessage (bundleId : String) : String :=
  "Could not find a bundle with ID `" ++ bundleId ++ "`. It might be invalid or off-sale."

/-- src/index.js line 109, the catch-block reply. -/
def fetchErrorMessage (bundleId : String) (msg : String) : String :=
  "🚨 An error occurred while fetching bundle `" ++ bundleId ++ "`: " ++ msg

/-- src/index.js line 55, the message of the thrown status error. -/
def detailStatusMessage (status : Nat) : String :=
  "Item Details API returned status " ++ toString status

/-- src/index.js `createAndSendBundleEmbed`.  `hasInteraction` is
whether the `interaction` argument is non-null; `thumbFetch` is the
outcome of the thumbnail GET (`Except.error` models a throw inside the
try block, `Except.ok` carries `thumbnailData.data?.[0]?.imageUrl`).
Replies go to the requester when an interaction is present; only the
scheduled path (no interaction) posts to the broadcast channel. -/
def createAndSendBundleEmbed (bundleId : String) (hasInteraction : Bool)
    (detail : DetailFetch) (thumbFetch : Except String (Option String)) :
    List OutEvent :=
  match detail with
  | DetailFetch.httpError status =>
    if hasInteraction then
      [OutEvent.editReplyError (fetchErrorMessage bundleId (detailStatusMessage status))]
    else []
  | DetailFetch.ok none =>
    if hasInteraction then [OutEvent.editReplyError (notFoundMessage bundleId)] else []
  | DetailFetch.ok (some bundle) =>
    match thumbFetch with
    | Except.error msg =>
      if hasInteraction then
        [OutEvent.editReplyError (fetchErrorMessage bundleId msg)]
      else []
    | Except.ok imageUrl =>
      let embed := buildEmbed bundle (imageUrl.getD "")
      if hasInteraction then [OutEvent.editReplyEmbed embed]
      else [OutEvent.channelSend embed]

/-- src/index.js line 197: `interaction.options.getString("id") ?? "126"`.
The `??` operator substitutes only for null/undefined, not for `""`. -/
def resolveBundleId : Option String → String
  | none => "126"
  | some s => s

/-- The `/debugsend` handler (src/index.js lines 195-204): resolve the
id, then run `createAndSendBundleEmbed` with the interaction present. -/
def handleDebugSend (rawId : Option String) (detail : DetailFetch)
    (thumbFetch : Except String (Option String)) : List OutEvent :=
  createAndSendBundleEmbed (resolveBundleId rawId) true detail thumbFetch

/-- The embeds a trace posts to the broadcast channel. -/
def broadcasts : List OutEvent → List RichEmbed
  | [] => []
  | OutEvent.channelSend e :: es => e :: broadcasts es
  | OutEvent.editReplyError _ :: es => broadcasts es
  | OutEvent.editReplyEmbed _ :: es => broadcasts es

/-! ## Tick scheduler (src/index.js lines 183-185, part_000 lines 132-137) -/

def CHECK_INTERVAL_MS : Nat := 1 * 60 * 1000

inductive TimerMode where
  | fixedInterval
  | rearmedOneShot
deriving DecidableEq, Repr

/-- Both variants schedule the poll with
`setInterval(checkForNewBundles, CHECK_INTERVAL_MS)` after one awaited
initial tick: a fixed-rate timer, not a re-armed one-shot timer. -/
def tickScheduling : TimerMode := TimerMode.fixedInterval

/-- Dispatch time of tick `k` under `setInterval`: the initial tick at
time 0, then one tick every `CHECK_INTERVAL_MS`, independent of how
long any tick runs. -/
def tickStart (k : Nat) : Nat := k * CHECK_INTERVAL_MS

/-- Completion time of tick `k` when each tick `i` runs for `dur i`. -/
def tickEnd (dur : Nat → Nat) (k : Nat) : Nat := tickStart k + dur k

/-! ## Basic lemmas about the tick functions -/

lemma foldl_insert_eq (xs : List Bundle) : ∀ seen : Finset Nat,
    xs.foldl (fun s b => insert b.id s) seen = seen ∪ (xs.map Bundle.id).toFinset := by
  induction xs with
  | nil => intro seen; simp
  | cons b rest ih =>
    intro seen
    rw [List.foldl_cons, ih, List.map_cons, List.toFinset_cons,
      Finset.union_insert, Finset.insert_union]

/-- The steady loop of src/index.js: final set and full event trace. -/
lemma notifyLoop_eq (xs : List Bundle) : ∀ seen : Finset Nat,
    notifyLoop seen xs =
      (xs.foldl (fun s b => insert b.id s) seen,
       xs.flatMap fun b => [Event.insert b.id, Event.notify b.id]) := by
  induction xs with
  | nil => intro seen; simp [notifyLoop]
  | cons b rest ih =>
    intro seen
    simp [notifyLoop, ih]

lemma collectNewBundles_fst (xs : List Bundle) : ∀ seen : Finset Nat,
    (collectNewBundles seen xs).1 = seen ∪ (xs.map Bundle.id).toFinset := by
  induction xs with
  | nil => intro seen; simp [collectNewBundles]
  | cons b rest ih =>
    intro seen
    by_cases hb : b.id ∈ seen
    · simp only [collectNewBundles, if_pos hb, ih, List.map_cons, List.toFinset_cons]
      rw [Finset.union_insert]
      exact (Finset.insert_eq_self.mpr (Finset.mem_union_left _ hb)).symm
    · simp only [collectNewBundles, if_neg hb, ih, List.map_cons, List.toFinset_cons]
      rw [Finset.union_insert, Finset.insert_union]

lemma collectNewBundles_all_seen (xs : List Bundle) (seen : Finset Nat)
    (h : ∀ b ∈ xs, b.id ∈ seen) : collectNewBundles seen xs = (seen, []) := by
  induction xs with
  | nil => rfl
  | cons b rest ih =>
    have hb : b.id ∈ seen := h b (List.mem_cons_self b rest)
    simp only [collectNewBundles, if_pos hb]
    exact ih fun x hx => h x (List.mem_cons_of_mem b hx)

/-- Under distinct ids, the incremental membership test of part_000
agrees with filtering against the seen set fixed at tick start. -/
lemma collectNewBundles_snd (xs : List Bundle) : ∀ seen : Finset Nat,
    (xs.map Bundle.id).Nodup →
    (collectNewBundles seen xs).2 = xs.filter (fun b => decide (b.id ∉ seen)) := by
  induction xs with
  | nil => intro seen _; rfl
  | cons b rest ih =>
    intro seen hnd
    rw [List.map_cons, List.nodup_cons] at hnd
    obtain ⟨hbnot, hrest⟩ := hnd
    by_cases hb : b.id ∈ seen
    · simp only [collectNewBundles, if_pos hb, List.filter_cons]
      have : (decide (b.id ∉ seen)) = false := by simp [hb]
      rw [this, if_neg (by simp)]
      exact ih seen hrest
    · simp only [collectNewBundles, if_neg hb, List.filter_cons]
      have : (decide (b.id ∉ seen)) = true := by simp [hb]
      rw [this, if_pos (by simp)]
      rw [ih (insert b.id seen) hrest]
      congr 1
      apply List.filter_congr
      intro x hx
      have hxid : x.id ≠ b.id := by
        intro hcontra
        exact hbnot (hcontra ▸ List.mem_map_of_mem Bundle.id hx)
      simp [Finset.mem_insert, hxid]

/-- Bootstrap branch of src/index.js: seed the set, no events. -/
lemma bootstrap_eq (l : List Bundle) (h : l ≠ []) :
    checkForNewBundles ∅ (Except.ok l) = ((l.map Bundle.id).toFinset, []) := by
  have hcond : (∅ : Finset Nat).card = 0 ∧ 0 < l.length :=
    ⟨Finset.card_empty, List.length_pos.mpr h⟩
  simp only [checkForNewBundles]
  rw [if_pos hcond, foldl_insert_eq, Finset.empty_union]

/-- Bootstrap branch of part_000: identical to src/index.js. -/
lemma bootstrapV0_eq (l : List Bundle) (h : l ≠ []) :
    checkForNewBundlesV0 ∅ (Except.ok l) = ((l.map Bundle.id).toFinset, []) := by
  have hcond : (∅ : Finset Nat).card = 0 ∧ 0 < l.length :=
    ⟨Finset.card_empty, List.length_pos.mpr h⟩
  simp only [checkForNewBundlesV0]
  rw [if_pos hcond, foldl_insert_eq, Finset.empty_union]

lemma filter_none (p : Bundle → Bool) (l : List Bundle) (h : ∀ b ∈ l, ¬ p b = true) :
    l.filter p = [] := by
  induction l with
  | nil => rfl
  | cons a as ih =>
    rw [List.filter_cons, if_neg (h a (List.mem_cons_self a as))]
    exact ih fun b hb => h b (List.mem_cons_of_mem a hb)

/-- Steady branch of src/index.js: filter against the tick-start set,
then insert-and-post per new bundle, in list order. -/
lemma steady_eq (seen : Finset Nat) (l : List Bundle) (h : seen ≠ ∅) :
    checkForNewBundles seen (Except.ok l) =
      (seen ∪ ((l.filter fun b => decide (b.id ∉ seen)).map Bundle.id).toFinset,
       (l.filter fun b => decide (b.id ∉ seen)).flatMap
         fun b => [Event.insert b.id, Event.notify b.id]) := by
  have hcard : ¬ ((seen.card = 0 ∧ 0 < l.length)) := by
    rintro ⟨hc, -⟩
    exact h (Finset.card_eq_zero.mp hc)
  simp only [checkForNewBundles]
  rw [if_neg hcard]
  by_cases hlen : 0 < (l.filter fun b => decide (b.id ∉ seen)).length
  · rw [if_pos hlen, notifyLoop_eq, foldl_insert_eq]
  · rw [if_neg hlen]
    have hnil : (l.filter fun b => decide (b.id ∉ seen)) = [] := by
      cases hf : l.filter fun b => decide (b.id ∉ seen) with
      | nil => rfl
      | cons a as => rw [hf] at hlen; simp at hlen
    rw [hnil]
    simp

/-- Steady branch of part_000: collect-and-insert, then post. -/
lemma steadyV0_eq (seen : Finset Nat) (l : List Bundle) (h : seen ≠ ∅) :
    checkForNewBundlesV0 seen (Except.ok l) =
      ((collectNewBundles seen l).1,
       (collectNewBundles seen l).2.map fun b => Event.notify b.id) := by
  have hcard : ¬ ((seen.card = 0 ∧ 0 < l.length)) := by
    rintro ⟨hc, -⟩
    exact h (Finset.card_eq_zero.mp hc)
  simp only [checkForNewBundlesV0]
  rw [if_neg hcard]
  by_cases hlen : 0 < (collectNewBundles seen l).2.length
  · rw [if_pos hlen]
  · rw [if_neg hlen]
    have hnil : (collectNewBundles seen l).2 = [] := by
      cases hf : (collectNewBundles seen l).2 with
      | nil => rfl
      | cons a as => rw [hf] at hlen; simp at hlen
    rw [hnil]
    rfl

lemma notifyEvents_interleave (xs : List Bundle) :
    notifyEvents (xs.flatMap fun b => [Event.insert b.id, Event.notify b.id]) =
      xs.map Bundle.id := by
  induction xs with
  | nil => rfl
  | cons b rest ih =>
    rw [List.flatMap_cons]
    simp only [List.cons_append, List.nil_append, List.map_cons, notifyEvents]
    show b.id :: notifyEvents (rest.flatMap fun b =>
      [Event.insert b.id, Event.notify b.id]) = _
    rw [ih]

/-! ## Sample records used by witnesses -/

def bundleA : Bundle := { id := 1 }

def bundleB : Bundle := { id := 2 }

def bundleC : Bundle := { id := 3 }

def bundleD : Bundle := { id := 4 }

def bundleE : Bundle := { id := 5 }

/-! ## Claims about the change-detection loop -/

/-- Claim C2: on the first tick whose fetch succeeds with a non-empty
list (seen set still empty), every returned id is inserted into the
seen set and zero notifications are emitted; a first tick returning
three bundles seeds exactly their ids. -/
theorem C2_bootstrap (l : List Bundle) (h : l ≠ []) :
    checkForNewBundles ∅ (Except.ok l) = ((l.map Bundle.id).toFinset, [])
    ∧ checkForNewBundlesV0 ∅ (Except.ok l) = ((l.map Bundle.id).toFinset, [])
    ∧ ∀ b ∈ l, b.id ∈ (checkForNewBundles ∅ (Except.ok l)).1 := by
  refine ⟨bootstrap_eq l h, bootstrapV0_eq l h, ?_⟩
  intro b hb
  rw [bootstrap_eq l h]
  exact List.mem_toFinset.mpr (List.mem_map_of_mem Bundle.id hb)

/-- Witness for C2 at the concrete first list `[A, B, C]`. -/
theorem C2_bootstrap_witness :
    ([bundleA, bundleB, bundleC] ≠ [])
    ∧ checkForNewBundles ∅ (Except.ok [bundleA, bundleB, bundleC]) =
        (([bundleA, bundleB, bundleC].map Bundle.id).toFinset, []) :=
  ⟨by decide, (C2_bootstrap [bundleA, bundleB, bundleC] (by decide)).1⟩

/-- Claim C1: on a post-bootstrap tick with a successful fetch, the
trace of src/index.js is exactly, per delta entry in list order, an
insertion of the id into the seen set immediately followed by its
notification; the notified ids are the delta ids in the original
relative order; ids already seen produce nothing; the final set is the
old set plus the delta ids.  part_000 posts the same delta in the same
order (its ids are all inserted during collection, before any posting).
The id-uniqueness hypothesis is the upstream data-model invariant that
`id` uniquely identifies an item within one response. -/
theorem C1_steady_delta (seen : Finset Nat) (l : List Bundle)
    (hseen : seen ≠ ∅) (hnd : (l.map Bundle.id).Nodup) :
    (checkForNewBundles seen (Except.ok l)).2 =
      ((l.filter fun b => decide (b.id ∉ seen)).flatMap
        fun b => [Event.insert b.id, Event.notify b.id])
    ∧ notifyEvents (checkForNewBundles seen (Except.ok l)).2 =
      ((l.filter fun b => decide (b.id ∉ seen)).map Bundle.id)
    ∧ (checkForNewBundles seen (Except.ok l)).1 =
      seen ∪ ((l.filter fun b => decide (b.id ∉ seen)).map Bundle.id).toFinset
    ∧ (checkForNewBundlesV0 seen (Except.ok l)).2 =
      ((l.filter fun b => decide (b.id ∉ seen)).map fun b => Event.notify b.id)
    ∧ (checkForNewBundlesV0 seen (Except.ok l)).1 =
      seen ∪ (l.map Bundle.id).toFinset := by
  rw [steady_eq seen l hseen, steadyV0_eq seen l hseen]
  refine ⟨rfl, notifyEvents_interleave _, rfl, ?_, ?_⟩
  · rw [collectNewBundles_snd l seen hnd]
  · rw [collectNewBundles_fst]

/-- Witness for C1: seen set `{1}`, fetched list `[E, D]` both new. -/
theorem C1_steady_delta_witness :
    (({1} : Finset Nat) ≠ ∅)
    ∧ ([bundleE, bundleD].map Bundle.id).Nodup
    ∧ notifyEvents (checkForNewBundles {1} (Except.ok [bundleE, bundleD])).2 =
        (([bundleE, bundleD].filter fun b => decide (b.id ∉ ({1} : Finset Nat))).map
          Bundle.id) :=
  ⟨by decide, by decide,
    (C1_steady_delta {1} [bundleE, bundleD] (by decide) (by decide)).2.1⟩

/-- Claim C9: re-running a steady tick on an unchanged list right after
a successful steady tick emits zero notifications (indeed no events at
all) and leaves the seen set exactly as the first run left it, in both
variants. -/
theorem C9_idempotent (seen : Finset Nat) (l : List Bundle) (hseen : seen ≠ ∅) :
    checkForNewBundles ((checkForNewBundles seen (Except.ok l)).1) (Except.ok l) =
      ((checkForNewBundles seen (Except.ok l)).1, [])
    ∧ checkForNewBundlesV0 ((checkForNewBundlesV0 seen (Except.ok l)).1) (Except.ok l) =
      ((checkForNewBundlesV0 seen (Except.ok l)).1, []) := by
  obtain ⟨x, hx⟩ := Finset.nonempty_iff_ne_empty.mpr hseen
  constructor
  · rw [steady_eq seen l hseen]
    set s1 : Finset Nat :=
      seen ∪ ((l.filter fun b => decide (b.id ∉ seen)).map Bundle.id).toFinset with hs1
    have hs1ne : s1 ≠ ∅ :=
      Finset.nonempty_iff_ne_empty.mp ⟨x, Finset.mem_union_left _ hx⟩
    have hall : ∀ b ∈ l, b.id ∈ s1 := by
      intro b hb
      by_cases hbs : b.id ∈ seen
      · exact Finset.mem_union_left _ hbs
      · refine Finset.mem_union_right _ (List.mem_toFinset.mpr ?_)
        exact List.mem_map_of_mem Bundle.id
          (List.mem_filter.mpr ⟨hb, by simp [hbs]⟩)
    rw [steady_eq s1 l hs1ne]
    have hfil : (l.filter fun b => decide (b.id ∉ s1)) = [] := by
      refine filter_none _ l fun b hb => ?_
      simp [hall b hb]
    rw [hfil]
    simp
  · rw [steadyV0_eq seen l hseen, collectNewBundles_fst]
    set t1 : Finset Nat := seen ∪ (l.map Bundle.id).toFinset with ht1
    have ht1ne : t1 ≠ ∅ :=
      Finset.nonempty_iff_ne_empty.mp ⟨x, Finset.mem_union_left _ hx⟩
    have hall : ∀ b ∈ l, b.id ∈ t1 :=
      fun b hb => Finset.mem_union_right _
        (List.mem_toFinset.mpr (List.mem_map_of_mem Bundle.id hb))
    rw [steadyV0_eq t1 l ht1ne, collectNewBundles_all_seen l t1 hall]
    rfl

/-- Witness for C9 with seen set `{1}` and list `[D]`. -/
theorem C9_idempotent_witness :
    (({1} : Finset Nat) ≠ ∅)
    ∧ checkForNewBundles ((checkForNewBundles {1} (Except.ok [bundleD])).1)
        (Except.ok [bundleD]) =
      ((checkForNewBundles {1} (Except.ok [bundleD])).1, []) :=
  ⟨by decide, (C9_idempotent {1} [bundleD] (by decide)).1⟩

/-- Claim C5: a failed list fetch aborts the tick with the seen set
unchanged and zero notifications, in both variants, and a subsequent
successful tick runs delta detection against the unchanged set (the
tick function is total, so the process survives the failure). -/
theorem C5_failed_tick (seen : Finset Nat) (e : String) (l : List Bundle) :
    (checkForNewBundles seen (Except.error e)).1 = seen
    ∧ notifyEvents (checkForNewBundles seen (Except.error e)).2 = []
    ∧ checkForNewBundles ((checkForNewBundles seen (Except.error e)).1)
        (Except.ok l) = checkForNewBundles seen (Except.ok l)
    ∧ (checkForNewBundlesV0 seen (Except.error e)).1 = seen
    ∧ notifyEvents (checkForNewBundlesV0 seen (Except.error e)).2 = []
    ∧ checkForNewBundlesV0 ((checkForNewBundlesV0 seen (Except.error e)).1)
        (Except.ok l) = checkForNewBundlesV0 seen (Except.ok l) :=
  ⟨rfl, rfl, rfl, rfl, rfl, rfl⟩

/-- Counterexample to claim C6: part_000 sends the failure alert to the
delivery sink even before any bootstrap has happened (seen set still
empty), and src/index.js never sends a failure alert to the sink even
after bootstrap (seen set `{1}`). -/
theorem C6_alert_counterexample :
    checkForNewBundlesV0 ∅ (Except.error "network failure") =
      (∅, [Event.alert (alertMessage "network failure")])
    ∧ checkForNewBundles {1} (Except.error "network failure") = ({1}, []) :=
  ⟨rfl, rfl⟩

/-- Amended claim C6: neither variant conditions failure reporting on
the bootstrap state.  part_000 reports every failed list fetch to the
delivery sink as an alert message, pre-bootstrap included; src/index.js
never reports a failed fetch to the sink at all (it only logs). -/
theorem C6_alert_policy (seen : Finset Nat) (e : String) :
    (checkForNewBundlesV0 seen (Except.error e)).2 = [Event.alert (alertMessage e)]
    ∧ (checkForNewBundles seen (Except.error e)).2 = [] :=
  ⟨rfl, rfl⟩

/-- Claim C10: a successful empty fetch while the seen set is empty
emits nothing and leaves the set empty (the bootstrap branch requires a
non-empty list), so a later non-empty fetch still runs the seeding
bootstrap without notifying, in both variants. -/
theorem C10_empty_fetch_keeps_bootstrapping :
    checkForNewBundles ∅ (Except.ok []) = (∅, [])
    ∧ checkForNewBundlesV0 ∅ (Except.ok []) = (∅, [])
    ∧ ∀ l : List Bundle, l ≠ [] →
        checkForNewBundles ∅ (Except.ok l) = ((l.map Bundle.id).toFinset, [])
        ∧ checkForNewBundlesV0 ∅ (Except.ok l) = ((l.map Bundle.id).toFinset, []) :=
  ⟨rfl, rfl, fun l h => ⟨bootstrap_eq l h, bootstrapV0_eq l h⟩⟩

/-- Witness for C10 at the concrete later list `[E]`. -/
theorem C10_empty_fetch_keeps_bootstrapping_witness :
    ([bundleE] ≠ [])
    ∧ checkForNewBundles ∅ (Except.ok [bundleE]) =
        (([bundleE].map Bundle.id).toFinset, []) :=
  ⟨by decide, (C10_empty_fetch_keeps_bootstrapping.2.2 [bundleE] (by decide)).1⟩

/-! ## Lemmas about the slug formatter -/

lemma toLower_isUpper_false (x : Char) : (Char.toLower x).isUpper = false := by
  simp only [Char.toLower]
  by_cases h : x.toNat ≥ 65 ∧ x.toNat ≤ 90
  · rw [if_pos h]
    obtain ⟨h1, h2⟩ := h
    generalize hg : Char.toNat x = m
    rw [hg] at h1 h2
    interval_cases m <;> decide
  · rw [if_neg h]
    simp only [Char.isUpper]
    by_cases h65 : (65 : UInt32) ≤ x.val
    · by_cases h90 : x.val ≤ (90 : UInt32)
      · exfalso
        apply h
        constructor
        · exact UInt32.le_toNat_of_le (by decide) h65
        · exact UInt32.toNat_le_of_le (by decide) h90
      · simp [h90]
    · simp [h65]

lemma mem_wsGo : ∀ (l : List Char) (b : Bool) (c : Char),
    c ∈ wsGo b l → c = '-' ∨ c ∈ l := by
  intro l
  induction l with
  | nil => intro b c h; simp [wsGo] at h
  | cons a rest ih =>
    intro b c h
    simp only [wsGo] at h
    split at h
    · match b, h with
      | true, h =>
        rcases ih true c h with h1 | h2
        · exact Or.inl h1
        · exact Or.inr (List.mem_cons_of_mem a h2)
      | false, h =>
        rcases List.mem_cons.mp h with h1 | h2
        · exact Or.inl h1
        · rcases ih true c h2 with h3 | h4
          · exact Or.inl h3
          · exact Or.inr (List.mem_cons_of_mem a h4)
    · rcases List.mem_cons.mp h with h1 | h2
      · rw [h1]; exact Or.inr (List.mem_cons_self a rest)
      · rcases ih false c h2 with h3 | h4
        · exact Or.inl h3
        · exact Or.inr (List.mem_cons_of_mem a h4)

lemma mem_collapseGo : ∀ (l : List Char) (b : Bool) (c : Char),
    c ∈ collapseGo b l → c ∈ l := by
  intro l
  induction l with
  | nil => intro b c h; simp [collapseGo] at h
  | cons a rest ih =>
    intro b c h
    simp only [collapseGo] at h
    split at h
    next ha =>
      match b, h with
      | true, h => exact List.mem_cons_of_mem a (ih true c h)
      | false, h =>
        rcases List.mem_cons.mp h with h1 | h2
        · rw [h1, ← ha]; exact List.mem_cons_self a rest
        · exact List.mem_cons_of_mem a (ih true c h2)
    next ha =>
      rcases List.mem_cons.mp h with h1 | h2
      · rw [h1]; exact List.mem_cons_self a rest
      · exact List.mem_cons_of_mem a (ih false c h2)

lemma mem_stripTrailingHyphens : ∀ (l : List Char) (c : Char),
    c ∈ stripTrailingHyphens l → c ∈ l := by
  intro l
  induction l with
  | nil => intro c h; simp [stripTrailingHyphens] at h
  | cons a rest ih =>
    intro c h
    simp only [stripTrailingHyphens] at h
    split at h
    · split at h
      · exact absurd h (List.not_mem_nil c)
      · rw [List.mem_singleton] at h
        rw [h]; exact List.mem_cons_self a rest
    next hs =>
      rcases List.mem_cons.mp h with h1 | h2
      · rw [h1]; exact List.mem_cons_self a rest
      · exact List.mem_cons_of_mem a (ih c h2)

lemma head_dropWhile_ne (p : Char → Bool) : ∀ (l : List Char) (c : Char),
    (l.dropWhile p).head? = some c → p c = false := by
  intro l
  induction l with
  | nil => intro c h; simp [List.dropWhile] at h
  | cons a rest ih =>
    intro c h
    rw [List.dropWhile_cons] at h
    split at h
    · exact ih c h
    next hpa =>
      rw [List.head?_cons] at h
      rw [← Option.some.inj h]
      exact Bool.eq_false_iff.mpr hpa

lemma collapseGo_ok : ∀ l : List Char,
    ((collapseGo true l).head? ≠ some '-')
    ∧ (∀ b, List.Chain' (fun a c => ¬(a = '-' ∧ c = '-')) (collapseGo b l)) := by
  intro l
  induction l with
  | nil => exact ⟨by simp [collapseGo], fun b => by simp [collapseGo]⟩
  | cons a rest ih =>
    obtain ⟨ih1, ih2⟩ := ih
    constructor
    · by_cases ha : a = '-'
      · simp only [collapseGo, if_pos ha]
        exact ih1
      · simp only [collapseGo, if_neg ha]
        intro hcontra
        rw [List.head?_cons] at hcontra
        exact ha (Option.some.inj hcontra)
    · intro b
      by_cases ha : a = '-'
      · match b with
        | true =>
          simp only [collapseGo, if_pos ha]
          exact ih2 true
        | false =>
          simp only [collapseGo, if_pos ha]
          rw [List.chain'_cons']
          refine ⟨?_, ih2 true⟩
          intro y hy hcontra
          rw [Option.mem_def] at hy
          rw [hcontra.2] at hy
          exact ih1 hy
      · match b with
        | true =>
          simp only [collapseGo, if_neg ha]
          rw [List.chain'_cons']
          exact ⟨fun y _ hcontra => ha hcontra.1, ih2 false⟩
        | false =>
          simp only [collapseGo, if_neg ha]
          rw [List.chain'_cons']
          exact ⟨fun y _ hcontra => ha hcontra.1, ih2 false⟩

lemma stripTrailing_isPrefix : ∀ l : List Char, stripTrailingHyphens l <+: l := by
  intro l
  induction l with
  | nil => exact List.nil_prefix
  | cons a rest ih =>
    simp only [stripTrailingHyphens]
    split
    · split
      · exact List.nil_prefix
      · exact List.cons_prefix_cons.mpr ⟨rfl, List.nil_prefix⟩
    next hs =>
      exact List.cons_prefix_cons.mpr ⟨rfl, ih⟩

lemma stripTrailing_head_cases : ∀ l : List Char,
    (stripTrailingHyphens l).head? = none
    ∨ (stripTrailingHyphens l).head? = l.head? := by
  intro l
  cases l with
  | nil => exact Or.inl rfl
  | cons a rest =>
    simp only [stripTrailingHyphens]
    split
    · split
      · exact Or.inl rfl
      · exact Or.inr rfl
    · exact Or.inr rfl

lemma stripTrailing_getLast_ne : ∀ l : List Char,
    (stripTrailingHyphens l).getLast? ≠ some '-' := by
  intro l
  induction l with
  | nil => simp [stripTrailingHyphens]
  | cons a rest ih =>
    simp only [stripTrailingHyphens]
    split
    · split
      next ha => simp
      next ha =>
        intro hcontra
        rw [List.getLast?_singleton] at hcontra
        exact ha (Option.some.inj hcontra)
    next hs =>
      cases hsr : stripTrailingHyphens rest with
      | nil => exact absurd hsr hs
      | cons r rs =>
        rw [List.getLast?_cons_cons]
        exact hsr ▸ ih

lemma slugify_some_data (s : String) (h : s ≠ "") :
    (slugify (some s)).data = slugifyChars (s.data.map Char.toLower) := by
  simp only [slugify]
  rw [if_neg h]

lemma slugify_chars_spec (s : String) (c : Char)
    (h : c ∈ (slugify (some s)).data) :
    (isWordChar c || c == '-') = true ∧ c.isUpper = false := by
  by_cases hs : s = ""
  · subst hs
    simp [slugify] at h
  · rw [slugify_some_data s hs] at h
    simp only [slugifyChars] at h
    have h1 := mem_stripTrailingHyphens _ c h
    have h2 := (List.dropWhile_sublist (fun c => c == '-')).subset h1
    have h3 := mem_collapseGo _ false c h2
    have h4 := List.mem_filter.mp h3
    refine ⟨h4.2, ?_⟩
    rcases mem_wsGo _ false c h4.1 with hc | hc
    · rw [hc]; decide
    · rcases List.mem_map.mp hc with ⟨x, -, hx⟩
      rw [← hx]
      exact toLower_isUpper_false x

lemma charset_lower (c : Char) (hc : (isWordChar c || c == '-') = true)
    (hu : c.isUpper = false) :
    (c.isLower || c.isDigit || c == '_' || c == '-') = true := by
  simp only [isWordChar, Char.isAlpha, Bool.or_eq_true, beq_iff_eq] at hc ⊢
  simp [hu] at hc
  tauto

lemma ws_not_word (c : Char) (hw : isWsChar c = true) :
    (isWordChar c || c == '-') = false := by
  simp only [isWsChar, Bool.or_eq_true, beq_iff_eq] at hw
  rcases hw with ((((h | h) | h) | h) | h) | h <;> rw [h] <;> decide

lemma slugify_charset (name : Option String) (c : Char)
    (h : c ∈ (slugify name).data) :
    (c.isLower || c.isDigit || c == '_' || c == '-') = true := by
  match name with
  | none => simp [slugify] at h
  | some s =>
    obtain ⟨hc, hu⟩ := slugify_chars_spec s c h
    exact charset_lower c hc hu

lemma slugify_no_ws (name : Option String) (c : Char)
    (h : c ∈ (slugify name).data) : isWsChar c = false := by
  match name with
  | none => simp [slugify] at h
  | some s =>
    obtain ⟨hc, -⟩ := slugify_chars_spec s c h
    by_cases hw : isWsChar c = true
    · rw [ws_not_word c hw] at hc
      exact absurd hc (by simp)
    · exact Bool.eq_false_iff.mpr hw

lemma slugify_head_ne (name : Option String) :
    (slugify name).data.head? ≠ some '-' := by
  match name with
  | none => simp [slugify]
  | some s =>
    by_cases hs : s = ""
    · subst hs; simp [slugify]
    · rw [slugify_some_data s hs]
      simp only [slugifyChars]
      rcases stripTrailing_head_cases
        ((collapseGo false ((wsGo false (s.data.map Char.toLower)).filter
          fun c => isWordChar c || c == '-')).dropWhile fun c => c == '-') with
        hcase | hcase
      · rw [hcase]; simp
      · rw [hcase]
        intro hcontra
        have := head_dropWhile_ne (fun c => c == '-') _ '-' hcontra
        simp at this

lemma slugify_getLast_ne (name : Option String) :
    (slugify name).data.getLast? ≠ some '-' := by
  match name with
  | none => simp [slugify]
  | some s =>
    by_cases hs : s = ""
    · subst hs; simp [slugify]
    · rw [slugify_some_data s hs]
      exact stripTrailing_getLast_ne _

lemma slugify_chain (name : Option String) :
    List.Chain' (fun a c => ¬(a = '-' ∧ c = '-')) (slugify name).data := by
  match name with
  | none => simp [slugify]
  | some s =>
    by_cases hs : s = ""
    · subst hs; simp [slugify]
    · rw [slugify_some_data s hs]
      simp only [slugifyChars]
      have h1 := (collapseGo_ok ((wsGo false (s.data.map Char.toLower)).filter
        fun c => isWordChar c || c == '-')).2 false
      have h2 := List.Chain'.suffix h1 (List.dropWhile_suffix fun c => c == '-')
      exact List.Chain'.prefix h2 (stripTrailing_isPrefix _)

/-! ## Claims about the price string, the on-demand path and the scheduler -/

/-- Counterexample to claim C3: the code tests a truthy `price` before
`priceStatus === "Off-Sale"`, so an off-sale bundle carrying a price of
250 yields `"250 Robux"`, not `"Off-Sale"`; and a priced bundle whose
price is 0 is falsy and yields `"N/A"`, not a string containing the
price. -/
theorem C3_price_counterexample :
    priceString { id := 10, priceStatus := some "Off-Sale", price := some 250 } =
      "250 Robux"
    ∧ priceString { id := 10, priceStatus := some "Off-Sale", price := some 250 } ≠
      "Off-Sale"
    ∧ priceString { id := 11, priceStatus := some "Normal", price := some 0 } = "N/A" :=
  ⟨rfl, by decide, rfl⟩

/-- Amended claim C3: the priority order is `Free`, then a present
non-zero numeric price (yielding `"{price} Robux"`), then `Off-Sale`,
else `"N/A"`.  An off-sale item with a non-zero price yields the price
string, and a price of 0 counts as absent. -/
theorem C3_price_string (b : Bundle) :
    (b.priceStatus = some "Free" → priceString b = "Free")
    ∧ (b.priceStatus ≠ some "Free" → ∀ p, b.price = some p → p ≠ 0 →
        priceString b = toString p ++ " Robux")
    ∧ (b.priceStatus ≠ some "Free" → (b.price = none ∨ b.price = some 0) →
        b.priceStatus = some "Off-Sale" → priceString b = "Off-Sale")
    ∧ (b.priceStatus ≠ some "Free" → (b.price = none ∨ b.price = some 0) →
        b.priceStatus ≠ some "Off-Sale" → priceString b = "N/A") := by
  have hfalsy : (b.price = none ∨ b.price = some 0) → jsTruthyNat b.price = false := by
    rintro (hp | hp) <;> simp [jsTruthyNat, hp]
  refine ⟨?_, ?_, ?_, ?_⟩
  · intro h
    simp only [priceString]
    rw [if_pos h]
  · intro h p hp hpne
    have htr : jsTruthyNat b.price = true := by simp [jsTruthyNat, hp, hpne]
    simp only [priceString]
    rw [if_neg h, if_pos htr, hp]
    rfl
  · intro h hp hoff
    simp only [priceString]
    rw [if_neg h, if_neg (by simp [hfalsy hp]), if_pos hoff]
  · intro h hp hoff
    simp only [priceString]
    rw [if_neg h, if_neg (by simp [hfalsy hp]), if_neg hoff]

/-- Witness for C3 at an off-sale record with no price. -/
theorem C3_price_string_witness :
    (({ id := 12, priceStatus := some "Off-Sale" } : Bundle).priceStatus ≠ some "Free")
    ∧ priceString { id := 12, priceStatus := some "Off-Sale" } = "Off-Sale" :=
  ⟨by decide,
    (C3_price_string { id := 12, priceStatus := some "Off-Sale" }).2.2.1
      (by decide) (Or.inl rfl) rfl⟩

lemma notFound_ne_fetchError (bundleId m : String) :
    notFoundMessage bundleId ≠ fetchErrorMessage bundleId m := by
  intro h
  have h2 : (notFoundMessage bundleId).data.head? =
      (fetchErrorMessage bundleId m).data.head? := by rw [h]
  have hl : (notFoundMessage bundleId).data.head? = some 'C' := rfl
  have hr : (fetchErrorMessage bundleId m).data.head? = some '🚨' := rfl
  rw [hl, hr] at h2
  exact absurd (Option.some.inj h2) (by decide)

/-- Counterexample to claim C7: the `??` operator substitutes the
default id only for a null/absent option value, so an empty-string
`rawId` is passed through unchanged instead of being replaced by the
fixed default `"126"`. -/
theorem C7_empty_id_counterexample :
    resolveBundleId (some "") = "" ∧ resolveBundleId (some "") ≠ "126" :=
  ⟨rfl, by decide⟩

/-- Amended claim C7: an absent `rawId` is replaced by the fixed
default `"126"`, while a provided string (the empty string included) is
passed through unchanged; when the detail lookup reports no matching
record the handler replies to the requester with the not-found message,
which differs from every transport-failure message; and no on-demand
request ever posts to the broadcast channel. -/
theorem C7_on_demand (rawId : Option String) (detail : DetailFetch)
    (thumbFetch : Except String (Option String)) :
    resolveBundleId none = "126"
    ∧ (∀ s, resolveBundleId (some s) = s)
    ∧ (detail = DetailFetch.ok none →
        handleDebugSend rawId detail thumbFetch =
          [OutEvent.editReplyError (notFoundMessage (resolveBundleId rawId))])
    ∧ (∀ i m, notFoundMessage i ≠ fetchErrorMessage i m)
    ∧ broadcasts (handleDebugSend rawId detail thumbFetch) = [] := by
  refine ⟨rfl, fun s => rfl, ?_, notFound_ne_fetchError, ?_⟩
  · intro h
    subst h
    rfl
  · match detail with
    | DetailFetch.httpError status => rfl
    | DetailFetch.ok none => rfl
    | DetailFetch.ok (some bundle) =>
      match thumbFetch with
      | Except.error msg => rfl
      | Except.ok imageUrl => rfl

/-- Witness for C7 at an absent id and a not-found detail lookup. -/
theorem C7_on_demand_witness :
    (DetailFetch.ok none = DetailFetch.ok none)
    ∧ handleDebugSend none (DetailFetch.ok none) (Except.ok none) =
        [OutEvent.editReplyError (notFoundMessage (resolveBundleId none))] :=
  ⟨rfl, (C7_on_demand none (DetailFetch.ok none) (Except.ok none)).2.2.1 rfl⟩

/-- Counterexample to claim C8: the scheduler is the fixed-rate
`setInterval`, not a re-armed one-shot timer, and a first tick lasting
70000 ms is still in progress when the second tick is dispatched at
60000 ms, so the next tick can start before the current one completes. -/
theorem C8_overlap_counterexample :
    tickScheduling = TimerMode.fixedInterval
    ∧ tickScheduling ≠ TimerMode.rearmedOneShot
    ∧ tickStart 1 < tickEnd (fun _ => 70000) 0 :=
  ⟨rfl, by decide, by norm_num [tickStart, tickEnd, CHECK_INTERVAL_MS]⟩

/-- Amended claim C8: ticks are dispatched by a fixed-rate timer every
`CHECK_INTERVAL_MS` independently of tick durations, and the next tick
starts before the current one completes exactly when the current tick
runs longer than the period; no non-overlap guarantee exists. -/
theorem C8_fixed_interval (dur : Nat → Nat) (k : Nat) :
    tickScheduling = TimerMode.fixedInterval
    ∧ tickStart (k + 1) = tickStart k + CHECK_INTERVAL_MS
    ∧ (tickStart (k + 1) < tickEnd dur k ↔ CHECK_INTERVAL_MS < dur k) := by
  refine ⟨rfl, ?_, ?_⟩
  · simp only [tickStart, CHECK_INTERVAL_MS]
    ring
  · simp only [tickStart, tickEnd, CHECK_INTERVAL_MS]
    omega

/-- Claim C4: `slugify` is a pure total function; empty or absent
input yields the empty string; the three spec examples hold; and every
output is built only from lowercase letters, digits, underscore and
hyphen (so everything outside `[A-Za-z0-9_-]` is removed and nothing
uppercase or whitespace survives), contains no two adjacent hyphens
(runs collapsed), and neither starts nor ends with a hyphen. -/
theorem C4_slugify :
    slugify (some "My Awesome Bundle!") = "my-awesome-bundle"
    ∧ slugify (some "") = ""
    ∧ slugify none = ""
    ∧ slugify (some "--A--") = "a"
    ∧ (∀ name c, c ∈ (slugify name).data →
        (c.isLower || c.isDigit || c == '_' || c == '-') = true)
    ∧ (∀ name c, c ∈ (slugify name).data → isWsChar c = false)
    ∧ (∀ name, (slugify name).data.head? ≠ some '-')
    ∧ (∀ name, (slugify name).data.getLast? ≠ some '-')
    ∧ (∀ name, List.Chain' (fun a c => ¬(a = '-' ∧ c = '-')) (slugify name).data) :=
  ⟨by decide, rfl, rfl, by decide,
    slugify_charset, slugify_no_ws, slugify_head_ne, slugify_getLast_ne,
    slugify_chain⟩

/-- Witness for C4 on the input `"Ab c"` at its output character `a`. -/
theorem C4_slugify_witness :
    ('a' ∈ (slugify (some "Ab c")).data)
    ∧ ('a'.isLower || 'a'.isDigit || 'a' == '_' || 'a' == '-') = true :=
  ⟨by decide, C4_slugify.2.2.2.2.1 (some "Ab c") 'a' (by decide)⟩

end BundleBot
